import Mathlib

/-!
# SymmetricalBroccoli: head-pose ingestion pipeline

A shallow embedding of `src/SymmetricalBroccoli.cpp` (built with the default
`DEBUGWINDOW = 0` and `DEBUGLOGDATA = 0`).

* The function-local `static` variables of `get_and_handle_data` and the globals
  `current_time` and `input_reset` are the fields of `State`.
* The host (X-Plane) and the socket are inputs of a cycle: what the successive
  `recv` calls return, the elapsed time, the view type and the six head channels.
* What a cycle does to the outside world is a list of `Event`s in program order:
  every `recv` call, every line handed to `XPLMDebugString`, every `XPLMSetDataf`.
  The non-blocking socket reports would-block exactly when nothing is pending.
* `double` and `float` values are elements of an arbitrary field `F` (exact
  arithmetic, the casts between `float` and `double` are the identity); `pow` of
  `<cmath>` is a parameter.  The theorems about the smoothing formula take
  `F = ℝ` and `pow = Real.rpow`.
* The `int` counters are integers that wrap at 32 bits.
-/

namespace SymmetricalBroccoli

/-- Six numbers in the order x, y, z, yaw, pitch, roll: the array `PoseData::d`
and the array `initial_pilot_head_pos`. -/
abbrev Vec6 (F : Type) := Fin 6 → F

def X : Fin 6 := 0
def Y : Fin 6 := 1
def Z : Fin 6 := 2
def PSI : Fin 6 := 3
def THE : Fin 6 := 4
def PHI : Fin 6 := 5

/-- The value `sizeof(data)`: six doubles, 48 bytes. -/
def sizeof_data : Nat := 48

/-- The system calls named in `report_socket_error`. -/
inductive Syscall where
  | socket
  | bind
  | fcntl
  | ioctlsocket
  | recv
  deriving DecidableEq, Repr

/-- The data refs looked up by `XPluginStart`, in the order of the lookups. -/
inductive DataRef where
  | view_type
  | head_x
  | head_y
  | head_z
  | head_psi
  | head_the
  | head_phi
  deriving DecidableEq, Repr

/-- One line handed to `XPLMDebugString` by `log_string`; every `log_stringf`
and every `report_socket_error` ends in exactly one `log_string`.  The text
formatting is not modelled. -/
inductive LogMsg where
  /-- The line of `report_socket_error(syscall)`. -/
  | socket_error (syscall : Syscall)
  /-- The line "No further recv errors will be reported". -/
  | no_further_recv_errors
  /-- The line "Got %ld bytes, expected %d". -/
  | got_bytes (n : Nat)
  /-- The line "No further data amount discrepancies will be reported". -/
  | no_further_discrepancies
  /-- The line "Initial head pos: ...". -/
  | initial_head_pos
  /-- The line "Setting XYZ=...". -/
  | setting
  /-- The line "Starting". -/
  | starting
  /-- The line "Could not find %s". -/
  | could_not_find (ref : DataRef)
  /-- The line "%s is of unexpected type". -/
  | unexpected_type (ref : DataRef)
  deriving DecidableEq, Repr

/-- What one call `recv(sock, &data, sizeof(data), 0)` returns when the socket
has something pending: a datagram or an error.  With nothing pending the
non-blocking socket answers `-1` with `errno == EAGAIN` (`WSAEWOULDBLOCK` on
Windows), the would-block condition. -/
inductive RecvResult (F : Type) where
  /-- The result `-1` with an error code other than would-block. -/
  | error
  /-- The result `n`: `n` bytes received, `buf` being the contents of `data` after the call. -/
  | bytes (n : Nat) (buf : Vec6 F)

/-- An effect on the outside world. -/
inductive Event (F : Type) where
  /-- A call of `recv` that returned a datagram or an error. -/
  | recv (r : RecvResult F)
  /-- A call of `recv` that reported would-block. -/
  | recv_would_block
  /-- A call of `XPLMDebugString`. -/
  | log (m : LogMsg)
  /-- A call `XPLMSetDataf(head_*, v)` on the head channel `ch`. -/
  | set_dataf (ch : Fin 6) (v : F)

/-- The statics of `get_and_handle_data` and the globals it uses. -/
structure State (F : Type) where
  /-- The global `static float current_time`. -/
  current_time : F
  /-- The global `static bool input_reset`. -/
  input_reset : Bool
  /-- The `static int errors` of the branch `n == -1`. -/
  recv_errors : Int
  /-- The `static int errors` of the branch `n != sizeof(data)`. -/
  size_errors : Int
  first_data : Vec6 F
  initial_pilot_head_pos : Vec6 F
  prev_data : Vec6 F
  prev_time : F
  first_time : Bool
  num_logs : Int

/-- The values of the statics when the plug-in is loaded. -/
def State.initial (F : Type) [Zero F] : State F where
  current_time := 0
  input_reset := true
  recv_errors := 0
  size_errors := 0
  first_data := fun _ => 0
  initial_pilot_head_pos := fun _ => 0
  prev_data := fun _ => 0
  prev_time := 0
  first_time := true
  num_logs := 0

/-- What the host and the socket present to one call of `get_and_handle_data`. -/
structure CycleInput (F : Type) where
  /-- The value of `XPLMGetElapsedTime()`. -/
  now : F
  /-- What is pending on the socket, in the order the successive `recv` calls
  return it; once the list is exhausted `recv` reports would-block. -/
  recvs : List (RecvResult F)
  /-- The indeterminate contents of the local `data` before the first `recv` -/
  stack_data : Vec6 F
  /-- The value of `XPLMGetDatai(view_type)`. -/
  view_type : Int
  /-- The values of `XPLMGetDataf` for `head_x`, `head_y`, `head_z`, `head_psi`, `head_the`,
  `head_phi` -/
  head : Vec6 F

/-- The increment `errors++` of an `int`, wrapping at 32 bits. -/
def int_incr (e : Int) : Int := (e + 1 + 2147483648) % 4294967296 - 2147483648

def X_FACTOR {F : Type} [Field F] : F := 15 / 1000
def Y_FACTOR {F : Type} [Field F] : F := -(15 / 1000)
def Z_FACTOR {F : Type} [Field F] : F := 2 / 100
def PSI_FACTOR {F : Type} [Field F] : F := 2
def THE_FACTOR {F : Type} [Field F] : F := 2

/-- The constant `ALPHA` of `average_data`. -/
def ALPHA {F : Type} [Field F] : F := 1 / 10

/-- The function `average_data`: the new value of `curr_value`. -/
def average_data {F : Type} [Field F] (pow : F → F → F)
    (curr_value prev_value : Vec6 F) (time_diff : F) : Vec6 F :=
  let prev_weight := pow ALPHA time_diff
  fun i => (1 - prev_weight) * curr_value i + prev_weight * prev_value i

/-- How the drain loop was left. -/
inductive LoopExit where
  /-- Left by `break`: the socket reported would-block. -/
  | broke
  /-- Left by `return`: the whole cycle is over. -/
  | returned
  deriving DecidableEq, Repr

/-- The state of a cycle when the drain loop is left. -/
structure Drained (F : Type) where
  exit : LoopExit
  st : State F
  data : Vec6 F
  got_something : Bool
  /-- The `recv` results not asked for in this cycle. -/
  rest : List (RecvResult F)
  events : List (Event F)

/-- The lines logged by the capped error report: the message while
`errors <= 10`, the final notice when `errors == 10`. -/
def capped_log {F : Type} (errors : Int) (msg notice : LogMsg) : List (Event F) :=
  (if errors ≤ 10 then [Event.log msg] else []) ++
    (if errors = 10 then [Event.log notice] else [])

/-- The loop `while (true) { n = recv(...); ... }` of `get_and_handle_data`,
entered with the given `data` and `got_something`. -/
def drain {F : Type} (st : State F) (data : Vec6 F) (got_something : Bool) :
    List (RecvResult F) → Drained F
  | [] =>
    { exit := .broke, st := st, data := data, got_something := got_something,
      rest := [], events := [.recv_would_block] }
  | .error :: rest =>
    { exit := .returned,
      st := { st with recv_errors := int_incr st.recv_errors },
      data := data, got_something := got_something, rest := rest,
      events := .recv .error ::
        capped_log st.recv_errors (.socket_error .recv) .no_further_recv_errors }
  | .bytes n buf :: rest =>
    if n ≠ sizeof_data then
      { exit := .returned,
        st := { st with size_errors := int_incr st.size_errors },
        data := buf, got_something := got_something, rest := rest,
        events := .recv (.bytes n buf) ::
          capped_log st.size_errors (.got_bytes n) .no_further_discrepancies }
    else
      let r := drain st buf true rest
      { r with events := .recv (.bytes n buf) :: r.events }

/-- The test that makes the first-time block return without capturing. -/
def host_not_ready {F : Type} [Field F] [DecidableEq F] (p : Vec6 F) : Bool :=
  p X = 0 && p Y = 0 && p X = 0 && p PSI = 0 && p THE = 0 && p PHI = 0

/-- The five `XPLMSetDataf` calls. -/
def set_head {F : Type} [Field F] (data first_data initial_pilot_head_pos : Vec6 F) :
    List (Event F) :=
  [ .set_dataf X ((data X - first_data X) * X_FACTOR + initial_pilot_head_pos X),
    .set_dataf Y ((data Y - first_data Y) * Y_FACTOR + initial_pilot_head_pos Y),
    .set_dataf Z ((data Z - first_data Z) * Z_FACTOR + initial_pilot_head_pos Z),
    .set_dataf PSI ((data PSI - first_data PSI) * PSI_FACTOR + initial_pilot_head_pos PSI),
    .set_dataf THE ((data THE - first_data THE) * THE_FACTOR + initial_pilot_head_pos THE) ]

/-- The part of `get_and_handle_data` after the drain loop has been left by
`break` with `got_something` set: the view-type gate and the tracker. -/
def handle_data {F : Type} [Field F] [DecidableEq F] (pow : F → F → F)
    (env : CycleInput F) (st : State F) (data : Vec6 F) : State F × List (Event F) :=
  if env.view_type ≠ 1026 then (st, [])
  else if st.first_time && host_not_ready env.head then
    ({ st with initial_pilot_head_pos := env.head }, [])
  else
    let st1 : State F :=
      if st.first_time then { st with initial_pilot_head_pos := env.head, first_time := false }
      else st
    let ev1 : List (Event F) := if st.first_time then [.log .initial_head_pos] else []
    if st1.input_reset then
      ({ st1 with first_data := data, prev_data := data, prev_time := st1.current_time,
                  input_reset := false }, ev1)
    else
      let time_diff := st1.current_time - st1.prev_time
      let data1 := average_data pow data st1.prev_data time_diff
      let ev2 := set_head data1 st1.first_data st1.initial_pilot_head_pos
      let ev3 : List (Event F) := if st1.num_logs < 100 then [.log .setting] else []
      let num_logs1 := if st1.num_logs < 100 then int_incr st1.num_logs else st1.num_logs
      ({ st1 with num_logs := num_logs1, prev_data := data1, prev_time := st1.current_time },
        ev1 ++ ev2 ++ ev3)

/-- The result of one cycle. -/
structure Outcome (F : Type) where
  st : State F
  /-- The `recv` results not asked for in this cycle. -/
  rest : List (RecvResult F)
  events : List (Event F)

/-- One call of `get_and_handle_data`. -/
def get_and_handle_data {F : Type} [Field F] [DecidableEq F] (pow : F → F → F)
    (env : CycleInput F) (st : State F) : Outcome F :=
  let r := drain { st with current_time := env.now } env.stack_data false env.recvs
  match r.exit with
  | .returned => { st := r.st, rest := r.rest, events := r.events }
  | .broke =>
    if !r.got_something then { st := r.st, rest := r.rest, events := r.events }
    else
      let h := handle_data pow env r.st r.data
      { st := h.1, rest := r.rest, events := r.events ++ h.2 }

/-- The `recv` result for a well-formed datagram carrying `d`. -/
def well_formed {F : Type} (d : Vec6 F) : RecvResult F := .bytes sizeof_data d

/-- The menu handler registered by `XPluginStart`: choosing the item "Reset"
sets `input_reset`. -/
def menu_handler {F : Type} (item_is_reset : Bool) (st : State F) : State F :=
  if item_is_reset then { st with input_reset := true } else st

/-- What the host does with the plug-in between load and unload: it calls the
flight-loop callback (one cycle) or the menu handler. -/
inductive Step (F : Type) where
  | cycle (env : CycleInput F)
  | menu (item_is_reset : Bool)

/-- A sequence of host calls, from the state `st`: the final state and all
events in order. -/
def run {F : Type} [Field F] [DecidableEq F] (pow : F → F → F) :
    State F → List (Step F) → State F × List (Event F)
  | st, [] => (st, [])
  | st, .cycle env :: more =>
    let o := get_and_handle_data pow env st
    let r := run pow o.st more
    (r.1, o.events ++ r.2)
  | st, .menu item_is_reset :: more => run pow (menu_handler item_is_reset st) more

/-- The head-channel writes of a trace, in order. -/
def writes {F : Type} : List (Event F) → List (Fin 6 × F)
  | [] => []
  | .set_dataf ch v :: tr => (ch, v) :: writes tr
  | _ :: tr => writes tr

/-- Whether an event is a log line about a datagram of the wrong length. -/
def is_size_log {F : Type} : Event F → Bool
  | .log (.got_bytes _) => true
  | .log .no_further_discrepancies => true
  | _ => false

/-- Whether an event is the reception of a datagram of the wrong length. -/
def is_malformed_recv {F : Type} : Event F → Bool
  | .recv (.bytes n _) => n ≠ sizeof_data
  | _ => false

/-- The number of calls of the logging sink on account of wrong-length
datagrams in a trace. -/
def size_log_calls {F : Type} (tr : List (Event F)) : Nat := tr.countP is_size_log

/-- The number of wrong-length datagrams received in a trace. -/
def malformed_recvs {F : Type} (tr : List (Event F)) : Nat := tr.countP is_malformed_recv

/-- The smoothed value after `k` cycles at the fixed interval `dt`, when cycle
`k` receives `feed k`: each cycle runs `average_data(data.d, prev_data.d, time_diff)`
and then `prev_data = data`. -/
def smoothed_feed {F : Type} [Field F] (pow : F → F → F) (feed : Nat → Vec6 F) (dt : F)
    (s0 : Vec6 F) : Nat → Vec6 F
  | 0 => s0
  | k + 1 => average_data pow (feed (k + 1)) (smoothed_feed pow feed dt s0 k) dt

/-- The constant-velocity feed sampled at the fixed interval `dt`: the sample of
cycle `k` is `x0 + k * v * dt` on every axis. -/
def constant_velocity_feed {F : Type} [Field F] (x0 v : Vec6 F) (dt : F) : Nat → Vec6 F :=
  fun k i => x0 i + (k : F) * v i * dt

/-- The value `xplmType_Int` of the X-Plane SDK header `XPLMDataAccess.h`. -/
def xplmType_Int : Int := 1

/-- The value `xplmType_Float` of the X-Plane SDK header `XPLMDataAccess.h`. -/
def xplmType_Float : Int := 2

/-- What the operating system and the host answer during `XPluginStart`. -/
structure StartInput where
  /-- The build macro `IBM` (Windows). -/
  IBM : Bool
  /-- Whether `socket(...)` succeeds. -/
  socket_ok : Bool
  /-- Whether `bind(...)` succeeds. -/
  bind_ok : Bool
  /-- Whether `fcntl(sock, F_SETFL, O_NONBLOCK)` (on Windows `ioctlsocket`) succeeds. -/
  nonblocking_ok : Bool
  /-- The answer of `XPLMFindDataRef`: `none` for `NULL`, otherwise the value
  `XPLMGetDataRefTypes` gives for the data ref. -/
  find : DataRef → Option Int

/-- An effect of `XPluginStart` on the outside world. -/
inductive StartEvent where
  /-- A successful `socket(...)`. -/
  | socket_opened
  /-- The call `CLOSESOCKET(sock)`. -/
  | closesocket
  /-- A call of `XPLMDebugString`. -/
  | log (m : LogMsg)
  /-- The calls `XPLMCreateFlightLoop` and `XPLMScheduleFlightLoop`. -/
  | flight_loop_scheduled
  /-- The creation of the menu with the item "Reset". -/
  | menu_created
  deriving DecidableEq, Repr

/-- The function `find_data_ref`: whether the result is not `NULL`, and the
lines logged. -/
def find_data_ref (env : StartInput) (name : DataRef) (expected_type : Int) :
    Bool × List StartEvent :=
  match env.find name with
  | none => (false, [.log (.could_not_find name)])
  | some ty =>
    if ty ≠ expected_type then (false, [.log (.unexpected_type name)])
    else (true, [])

/-- The seven lookups of `XPluginStart` with the types they expect. -/
def data_refs : List (DataRef × Int) :=
  [ (.view_type, xplmType_Int), (.head_x, xplmType_Float), (.head_y, xplmType_Float),
    (.head_z, xplmType_Float), (.head_psi, xplmType_Float), (.head_the, xplmType_Float),
    (.head_phi, xplmType_Float) ]

/-- The chain `if ((... = find_data_ref(...)) == NULL) return 0;` over the given
lookups, followed by the rest of `XPluginStart`: the return value and the
events. -/
def find_refs_then_finish (env : StartInput) : List (DataRef × Int) → Int × List StartEvent
  | [] => (1, [.flight_loop_scheduled, .menu_created])
  | (name, ty) :: more =>
    let r := find_data_ref env name ty
    if !r.1 then (0, r.2)
    else
      let k := find_refs_then_finish env more
      (k.1, r.2 ++ k.2)

/-- The function `XPluginStart`: the return value and the events in order. -/
def XPluginStart (env : StartInput) : Int × List StartEvent :=
  if !env.socket_ok then (0, [.log (.socket_error .socket)])
  else if !env.bind_ok then
    (0, [.socket_opened, .log (.socket_error .bind), .closesocket])
  else if !env.nonblocking_ok then
    if env.IBM then (0, [.socket_opened, .log (.socket_error .ioctlsocket)])
    else (0, [.socket_opened, .log (.socket_error .fcntl), .closesocket])
  else
    let k := find_refs_then_finish env data_refs
    (k.1, [.socket_opened, .log .starting] ++ k.2)

/-- Whether a trace of `XPluginStart` opens the socket and never closes it. -/
def socket_left_open (tr : List StartEvent) : Bool :=
  tr.contains .socket_opened && !tr.contains .closesocket

/-- The number of log calls on account of wrong-length datagrams that the capped
report has made once the counter stands at `k`. -/
def size_logs_upto (k : Int) : Nat := if k ≤ 10 then k.toNat else 12

/-- The smoothing formula of the specification,
`smoothed[i] = (1 - w) * sample[i] + w * previous_pose[i]`. -/
def spec_smoothed {F : Type} [Field F] (w : F) (sample previous_pose : Vec6 F) : Vec6 F :=
  fun i => (1 - w) * sample i + w * previous_pose i

/-- The host clock values of a sequence of host calls: what `XPLMGetElapsedTime()`
returns at the start of each cycle, in order. -/
def clock_values {F : Type} : List (Step F) → List F
  | [] => []
  | .cycle env :: more => env.now :: clock_values more
  | .menu _ :: more => clock_values more

/-- The value of `time_diff` in the call
`average_data(data.d, prev_data.d, time_diff)` of a cycle, if the cycle gets
that far: the drain loop is left by `break` with `got_something` set, the view
is the 3D cockpit, the first-time block does not return and no reset is
pending. -/
def time_diff_of_cycle {F : Type} [Field F] [DecidableEq F] (env : CycleInput F)
    (st : State F) : Option F :=
  let r := drain { st with current_time := env.now } env.stack_data false env.recvs
  if r.exit = .broke ∧ r.got_something = true ∧ env.view_type = 1026 ∧
      ¬ (r.st.first_time = true ∧ host_not_ready env.head = true) ∧
      r.st.input_reset = false then
    some (r.st.current_time - r.st.prev_time)
  else none

/-! ## Concrete inputs -/

/-- A stand-in for `pow` on rational numbers, right on exponents that are
natural numbers. -/
def pow_q (a b : ℚ) : ℚ := a ^ (Int.toNat (Int.floor b))

def pose_A {F : Type} [Field F] : Vec6 F := ![1, 2, 3, 4, 5, 6]
def pose_B {F : Type} [Field F] : Vec6 F := ![2, 3, 4, 5, 6, 7]
def pose_C {F : Type} [Field F] : Vec6 F := ![100, 0, 0, 0, 0, 0]

/-- A state in which the initial head position `(10, 20, 30, 0, 0, 0)` has been
captured and the tracked position has been seeded with zeros at time 1. -/
def state_tracking {F : Type} [Field F] : State F where
  current_time := 1
  input_reset := false
  recv_errors := 0
  size_errors := 0
  first_data := fun _ => 0
  initial_pilot_head_pos := ![10, 20, 30, 0, 0, 0]
  prev_data := fun _ => 0
  prev_time := 1
  first_time := false
  num_logs := 0

/-- A cycle at time `now` in the 3D cockpit, the host reading the head position
`head`, with the `recv` results `recvs` pending. -/
def cockpit_cycle {F : Type} [Field F] (now : F) (head : Vec6 F)
    (recvs : List (RecvResult F)) : CycleInput F where
  now := now
  recvs := recvs
  stack_data := fun _ => 0
  view_type := 1026
  head := head

/-- A cycle at time 2 with the datagrams A, B, C queued. -/
def env_ABC {F : Type} [Field F] : CycleInput F :=
  cockpit_cycle 2 ![10, 20, 30, 0, 0, 0]
    [well_formed pose_A, well_formed pose_B, well_formed pose_C]

/-- A cycle at time 2 with a 20-byte datagram queued before the well-formed
datagram C. -/
def env_short_C {F : Type} [Field F] : CycleInput F :=
  cockpit_cycle 2 ![10, 20, 30, 0, 0, 0] [.bytes 20 pose_A, well_formed pose_C]

/-- A cycle at time 2 with one 20-byte datagram queued. -/
def env_short {F : Type} [Field F] : CycleInput F :=
  cockpit_cycle 2 ![10, 20, 30, 0, 0, 0] [.bytes 20 pose_A]

/-- A cycle at time 2 with the datagram C queued, the host reading a head
position whose only non-zero component is z. -/
def env_only_z {F : Type} [Field F] : CycleInput F :=
  cockpit_cycle 2 ![0, 0, 1, 0, 0, 0] [well_formed pose_C]

/-- A cycle at time 2 with the datagram C queued, the host reading the all-zero
head position. -/
def env_zero {F : Type} [Field F] : CycleInput F :=
  cockpit_cycle 2 (fun _ => 0) [well_formed pose_C]

/-- A cycle at time 3 with the datagram A queued, the host reading the head
position `(1, 2, 3, 4, 5, 6)`. -/
def env_moved {F : Type} [Field F] : CycleInput F :=
  cockpit_cycle 3 ![1, 2, 3, 4, 5, 6] [well_formed pose_A]

/-- A cycle at time 4 with the datagram B queued. -/
def env_later {F : Type} [Field F] : CycleInput F :=
  cockpit_cycle 4 ![7, 7, 7, 7, 7, 7] [well_formed pose_B]

/-- The state `state_tracking` with another history: other reference pose,
previous pose and previous time. -/
def state_other_history {F : Type} [Field F] : State F :=
  { (state_tracking : State F) with first_data := pose_C, prev_data := pose_B, prev_time := 0 }

/-- A cycle at time 403 with the datagram B queued. -/
def env_much_later {F : Type} [Field F] : CycleInput F :=
  cockpit_cycle 403 ![7, 7, 7, 7, 7, 7] [well_formed pose_B]

/-- A stand-in for the `double` function `pow` of `<cmath>` where its result
underflows, on exponents that are natural numbers: the exact power, replaced by
zero when it is at most `2^-1075`, half the smallest positive `double` (IEEE 754
rounds such a result to zero).  Above that bound the rounding of `pow` is left
out. -/
def pow_underflow (a b : ℚ) : ℚ :=
  if pow_q a b ≤ 1 / 2 ^ 1075 then 0 else pow_q a b

/-- A start on Linux or macOS in which the socket is created, bound and made
non-blocking, and the host knows none of the data refs. -/
def start_lookup_fails : StartInput where
  IBM := false
  socket_ok := true
  bind_ok := true
  nonblocking_ok := true
  find := fun _ => none

/-! ## The drain loop -/

theorem drain_well_formed {F : Type} (st : State F) (ds : List (Vec6 F)) :
    ∀ (data : Vec6 F) (got : Bool),
      drain st data got (ds.map well_formed) =
        { exit := .broke, st := st, data := (ds.getLast?).getD data,
          got_something := got || !ds.isEmpty, rest := [],
          events := ds.map (fun d => Event.recv (well_formed d)) ++ [.recv_would_block] } := by
  induction ds with
  | nil => intro data got; simp [drain]
  | cons d ds ih =>
    intro data got
    simp only [List.map_cons, well_formed, drain, ne_eq, not_true_eq_false, if_false]
    have := ih d true
    simp only [well_formed] at this
    rw [this]
    cases ds with
    | nil => simp
    | cons e es =>
      have hl : (e :: es).getLast? = some ((e :: es).getLast (List.cons_ne_nil e es)) :=
        List.getLast?_eq_getLast _ _
      simp [List.getLast?_cons_cons, hl]

/-- C1 (drain keeps latest): when the socket holds a non-empty sequence of
well-formed 48-byte datagrams followed by would-block, one cycle of
`get_and_handle_data` receives every one of them in order, then the
would-block, leaves nothing unread, and its remaining effect and its final
state are those of one run of the rest of the function (the view-type test and
the tracker step) on the last datagram in arrival order. -/
theorem drain_keeps_latest {F : Type} [Field F] [DecidableEq F] (pow : F → F → F)
    (env : CycleInput F) (st : State F) (ds : List (Vec6 F)) (hne : ds ≠ [])
    (hq : env.recvs = ds.map well_formed) :
    get_and_handle_data pow env st =
      { st := (handle_data pow env { st with current_time := env.now } (ds.getLast hne)).1,
        rest := [],
        events := ds.map (fun d => Event.recv (well_formed d)) ++ [.recv_would_block] ++
          (handle_data pow env { st with current_time := env.now } (ds.getLast hne)).2 } := by
  have hlast : (ds.getLast?).getD env.stack_data = ds.getLast hne := by
    rw [List.getLast?_eq_getLast ds hne]; rfl
  have hemp : ds.isEmpty = false := by
    cases ds with
    | nil => exact absurd rfl hne
    | cons _ _ => rfl
  simp only [get_and_handle_data, hq, drain_well_formed, hlast, hemp]
  simp

theorem drain_keeps_latest_witness :
    [(pose_A : Vec6 ℚ), pose_B, pose_C] ≠ [] ∧
    (env_ABC : CycleInput ℚ).recvs = [pose_A, pose_B, pose_C].map well_formed ∧
    get_and_handle_data pow_q env_ABC state_tracking =
      { st := (handle_data pow_q env_ABC { state_tracking with current_time := 2 } pose_C).1,
        rest := [],
        events := [.recv (well_formed pose_A), .recv (well_formed pose_B),
            .recv (well_formed pose_C), .recv_would_block] ++
          (handle_data pow_q env_ABC { state_tracking with current_time := 2 } pose_C).2 } :=
  ⟨by simp, rfl,
    drain_keeps_latest pow_q env_ABC state_tracking [pose_A, pose_B, pose_C] (by simp) rfl⟩

theorem drain_cons_well_formed {F : Type} (st : State F) (d : Vec6 F)
    (q : List (RecvResult F)) (data : Vec6 F) (got : Bool) :
    drain st data got (well_formed d :: q) =
      { drain st d true q with
        events := Event.recv (well_formed d) :: (drain st d true q).events } := by
  simp [well_formed, drain]

theorem drain_append_well_formed {F : Type} (st : State F) (pre : List (Vec6 F))
    (q : List (RecvResult F)) :
    ∀ (data : Vec6 F) (got : Bool),
      drain st data got (pre.map well_formed ++ q) =
        { drain st ((pre.getLast?).getD data) (got || !pre.isEmpty) q with
          events := pre.map (fun d => Event.recv (well_formed d)) ++
            (drain st ((pre.getLast?).getD data) (got || !pre.isEmpty) q).events } := by
  induction pre with
  | nil => intro data got; simp
  | cons d ds ih =>
    intro data got
    rw [List.map_cons, List.cons_append, drain_cons_well_formed, ih d true]
    cases ds with
    | nil => simp
    | cons e es =>
      have hl : (e :: es).getLast? = some ((e :: es).getLast (List.cons_ne_nil e es)) :=
        List.getLast?_eq_getLast _ _
      simp [List.getLast?_cons_cons, hl]

theorem int_incr_eq (e : Int) (h0 : -2147483648 ≤ e) (h1 : e < 2147483647) :
    int_incr e = e + 1 := by
  unfold int_incr
  omega

/-- C2, as the code has it (a wrong-length datagram ends the cycle): when a
datagram whose byte count differs from 48 is received, after any number of
well-formed ones, the cycle returns at once.  The datagram is discarded, the
discrepancy counter is incremented (by one, unless the `int` is at its
maximum), the capped report is made, no later `recv` result is asked for
(whatever is queued after it stays queued), no sample is handled: no head
channel is written and of the state only `current_time` and the counter
change. -/
theorem malformed_ends_cycle {F : Type} [Field F] [DecidableEq F] (pow : F → F → F)
    (env : CycleInput F) (st : State F) (pre : List (Vec6 F)) (n : Nat) (junk : Vec6 F)
    (post : List (RecvResult F)) (hn : n ≠ 48)
    (hq : env.recvs = pre.map well_formed ++ .bytes n junk :: post) :
    get_and_handle_data pow env st =
      { st := { st with current_time := env.now, size_errors := int_incr st.size_errors },
        rest := post,
        events := pre.map (fun d => Event.recv (well_formed d)) ++
          .recv (.bytes n junk) ::
            capped_log st.size_errors (.got_bytes n) .no_further_discrepancies } ∧
    writes (get_and_handle_data pow env st).events = [] ∧
    (-2147483648 ≤ st.size_errors → st.size_errors < 2147483647 →
      (get_and_handle_data pow env st).st.size_errors = st.size_errors + 1) := by
  have hn2 : n ≠ sizeof_data := hn
  have key : get_and_handle_data pow env st =
      { st := { st with current_time := env.now, size_errors := int_incr st.size_errors },
        rest := post,
        events := pre.map (fun d => Event.recv (well_formed d)) ++
          .recv (.bytes n junk) ::
            capped_log st.size_errors (.got_bytes n) .no_further_discrepancies } := by
    simp only [get_and_handle_data, hq, drain_append_well_formed, drain, hn2, ne_eq,
      not_false_eq_true, if_true]
  refine ⟨key, ?_, ?_⟩
  · rw [key]
    have hw : ∀ (l : List (Vec6 F)) (tl : List (Event F)),
        writes (l.map (fun d => Event.recv (well_formed d)) ++ tl) = writes tl := by
      intro l tl
      induction l with
      | nil => rfl
      | cons a l ih => simpa [writes] using ih
    simp only [hw, writes, capped_log]
    split_ifs <;> simp [writes]
  · intro h0 h1
    rw [key]
    exact int_incr_eq _ h0 h1

theorem malformed_ends_cycle_witness :
    (20 : Nat) ≠ 48 ∧
    (env_short_C : CycleInput ℚ).recvs = ([] : List (Vec6 ℚ)).map well_formed ++
      .bytes 20 pose_A :: [well_formed pose_C] ∧
    get_and_handle_data pow_q env_short_C state_tracking =
      { st := { state_tracking with current_time := 2, size_errors := int_incr 0 },
        rest := [well_formed pose_C],
        events := [.recv (.bytes 20 pose_A), .log (.got_bytes 20)] } :=
  ⟨by decide, rfl,
    (malformed_ends_cycle pow_q env_short_C state_tracking [] 20 pose_A [well_formed pose_C]
      (by decide) rfl).1⟩

/-- C2 fails as stated: with a 20-byte datagram queued before the well-formed
datagram C, the cycle stops at the short datagram.  C is not read (it is still
queued afterwards), nothing is written to the head channels and the smoothed
pose is not updated, whereas the tracker step on C would write the five head
channels. -/
theorem malformed_skipped_counterexample :
    (get_and_handle_data pow_q env_short_C state_tracking).rest = [well_formed pose_C] ∧
    (get_and_handle_data pow_q env_short_C state_tracking).events =
      [.recv (.bytes 20 pose_A), .log (.got_bytes 20)] ∧
    (get_and_handle_data pow_q env_short_C state_tracking).st.prev_data =
      state_tracking.prev_data ∧
    (writes (handle_data pow_q env_short_C { state_tracking with current_time := 2 }
      pose_C).2).length = 5 := by
  refine ⟨rfl, rfl, rfl, ?_⟩
  simp [handle_data, env_short_C, state_tracking, set_head, writes]

/-! ## Capped logging of wrong-length datagrams -/

/-- The number of sink calls the capped report makes when the counter is `e`. -/
theorem size_log_calls_capped_log {F : Type} (e : Int) (n : Nat) :
    size_log_calls (capped_log e (.got_bytes n) .no_further_discrepancies : List (Event F)) =
      (if e ≤ 10 then 1 else 0) + (if e = 10 then 1 else 0) := by
  unfold size_log_calls capped_log
  split_ifs <;> simp [is_size_log]

theorem handle_data_size {F : Type} [Field F] [DecidableEq F] (pow : F → F → F)
    (env : CycleInput F) (st : State F) (data : Vec6 F) :
    (handle_data pow env st data).1.size_errors = st.size_errors ∧
    size_log_calls (handle_data pow env st data).2 = 0 ∧
    malformed_recvs (handle_data pow env st data).2 = 0 := by
  unfold handle_data size_log_calls malformed_recvs
  by_cases hv : env.view_type = 1026 <;> cases hft : st.first_time <;>
    cases hnr : host_not_ready env.head <;> cases hir : st.input_reset <;>
    by_cases hl : st.num_logs < 100 <;>
    simp [hv, hft, hnr, hir, hl, set_head, is_size_log, is_malformed_recv]

theorem drain_size {F : Type} (q : List (RecvResult F)) :
    ∀ (st : State F) (data : Vec6 F) (got : Bool),
      (malformed_recvs (drain st data got q).events = 0 ∧
        (drain st data got q).st.size_errors = st.size_errors ∧
        size_log_calls (drain st data got q).events = 0) ∨
      (malformed_recvs (drain st data got q).events = 1 ∧
        (drain st data got q).st.size_errors = int_incr st.size_errors ∧
        size_log_calls (drain st data got q).events =
          (if st.size_errors ≤ 10 then 1 else 0) + (if st.size_errors = 10 then 1 else 0)) := by
  induction q with
  | nil => intro st data got; left; simp [drain, malformed_recvs, size_log_calls,
      is_malformed_recv, is_size_log]
  | cons r q ih =>
    intro st data got
    cases r with
    | error =>
      left
      simp only [drain, malformed_recvs, size_log_calls, capped_log]
      split_ifs <;> simp [is_malformed_recv, is_size_log]
    | bytes n buf =>
      by_cases hn : n = sizeof_data
      · rcases ih st buf true with h | h
        · left
          simpa [drain, hn, malformed_recvs, size_log_calls, is_malformed_recv, is_size_log]
            using h
        · right
          simpa [drain, hn, malformed_recvs, size_log_calls, is_malformed_recv, is_size_log]
            using h
      · right
        have hc := size_log_calls_capped_log (F := F) st.size_errors n
        simp only [size_log_calls] at hc
        refine ⟨?_, ?_, ?_⟩
        · simp only [drain, hn, ne_eq, not_false_eq_true, if_true, malformed_recvs, capped_log]
          split_ifs <;> simp [is_malformed_recv, hn]
        · simp [drain, hn]
        · simp only [drain, hn, ne_eq, not_false_eq_true, if_true, size_log_calls,
            List.countP_cons, hc]
          simp [is_size_log]

theorem cycle_size {F : Type} [Field F] [DecidableEq F] (pow : F → F → F)
    (env : CycleInput F) (st : State F) :
    (malformed_recvs (get_and_handle_data pow env st).events = 0 ∧
      (get_and_handle_data pow env st).st.size_errors = st.size_errors ∧
      size_log_calls (get_and_handle_data pow env st).events = 0) ∨
    (malformed_recvs (get_and_handle_data pow env st).events = 1 ∧
      (get_and_handle_data pow env st).st.size_errors = int_incr st.size_errors ∧
      size_log_calls (get_and_handle_data pow env st).events =
        (if st.size_errors ≤ 10 then 1 else 0) + (if st.size_errors = 10 then 1 else 0)) := by
  have hd := drain_size env.recvs { st with current_time := env.now } env.stack_data false
  simp only [get_and_handle_data]
  generalize drain { st with current_time := env.now } env.stack_data false env.recvs = r
    at hd ⊢
  have hh := handle_data_size pow env r.st r.data
  cases hex : r.exit with
  | returned => simpa using hd
  | broke =>
    cases hg : r.got_something with
    | false => simpa using hd
    | true =>
      obtain ⟨h1, h2, h3⟩ := hh
      unfold malformed_recvs size_log_calls at *
      simp only [Bool.not_true, Bool.false_eq_true, if_false, List.countP_append, h1, h2, h3,
        Nat.add_zero]
      exact hd

theorem run_append {F : Type} [Field F] [DecidableEq F] (pow : F → F → F)
    (s1 s2 : List (Step F)) :
    ∀ st : State F, run pow st (s1 ++ s2) =
      ((run pow (run pow st s1).1 s2).1, (run pow st s1).2 ++ (run pow (run pow st s1).1 s2).2) := by
  induction s1 with
  | nil => intro st; simp [run]
  | cons a s1 ih =>
    intro st
    cases a with
    | cycle env => simp [run, ih]
    | menu b => simp [run, ih]

theorem size_logs_upto_step (e : Int) (h : 0 ≤ e) :
    ((if e ≤ 10 then 1 else 0) + (if e = 10 then 1 else 0)) + size_logs_upto e =
      size_logs_upto (e + 1) := by
  unfold size_logs_upto
  split_ifs <;> omega

theorem run_size {F : Type} [Field F] [DecidableEq F] (pow : F → F → F)
    (steps : List (Step F)) :
    ∀ st : State F, 0 ≤ st.size_errors →
      st.size_errors + malformed_recvs (run pow st steps).2 < 2147483648 →
      (run pow st steps).1.size_errors = st.size_errors + malformed_recvs (run pow st steps).2 ∧
      size_log_calls (run pow st steps).2 + size_logs_upto st.size_errors =
        size_logs_upto (st.size_errors + malformed_recvs (run pow st steps).2) := by
  induction steps with
  | nil => intro st _ _; simp [run, malformed_recvs, size_log_calls]
  | cons a steps ih =>
    intro st h0 hlt
    cases a with
    | menu b =>
      have hs : (menu_handler b st).size_errors = st.size_errors := by
        unfold menu_handler; split_ifs <;> rfl
      have := ih (menu_handler b st)
      simp only [run] at hlt ⊢
      rw [hs] at this
      exact this h0 hlt
    | cycle env =>
      simp only [run] at hlt ⊢
      have hm : malformed_recvs ((get_and_handle_data pow env st).events ++
          (run pow (get_and_handle_data pow env st).st steps).2) =
          malformed_recvs (get_and_handle_data pow env st).events +
            malformed_recvs (run pow (get_and_handle_data pow env st).st steps).2 := by
        simp [malformed_recvs, List.countP_append]
      have hs : size_log_calls ((get_and_handle_data pow env st).events ++
          (run pow (get_and_handle_data pow env st).st steps).2) =
          size_log_calls (get_and_handle_data pow env st).events +
            size_log_calls (run pow (get_and_handle_data pow env st).st steps).2 := by
        simp [size_log_calls, List.countP_append]
      rw [hm] at hlt ⊢
      rw [hs]
      have hi := ih (get_and_handle_data pow env st).st
      rcases cycle_size pow env st with ⟨c1, c2, c3⟩ | ⟨c1, c2, c3⟩
      · rw [c2] at hi
        rw [c1] at hlt ⊢
        rw [c3]
        have := hi h0 (by simpa using hlt)
        simpa using this
      · have hinc : int_incr st.size_errors = st.size_errors + 1 :=
          int_incr_eq _ (by omega) (by rw [c1] at hlt; push_cast at hlt; omega)
        rw [c2, hinc] at hi
        rw [c1] at hlt ⊢
        push_cast at hlt ⊢
        have := hi (by omega) (by omega)
        rw [c3]
        have hstep := size_logs_upto_step st.size_errors h0
        constructor
        · rw [this.1]; ring
        · have e1 : st.size_errors + (1 + ((malformed_recvs
              (run pow (get_and_handle_data pow env st).st steps).2 : Nat) : Int)) =
              st.size_errors + 1 + ((malformed_recvs
              (run pow (get_and_handle_data pow env st).st steps).2 : Nat) : Int) := by ring
          rw [e1, ← this.2]
          omega

/-- C3, as the code has it (capped logging of wrong-length datagrams): over
every sequence of cycles and menu actions from the loaded plug-in in which
fewer than 2^31 wrong-length datagrams are received (the `int` counter does
not overflow), the number of calls of the logging sink on account of
wrong-length datagrams is the number of such datagrams while that is at most
10 and is 12 from the 11th on (the 11th logs its own line and the final
notice), so it is at most 12; and once 11 wrong-length datagrams have been
received, whatever follows makes no such call. -/
theorem size_logging_capped {F : Type} [Field F] [DecidableEq F] (pow : F → F → F)
    (steps : List (Step F))
    (hlt : malformed_recvs (run pow (State.initial F) steps).2 < 2147483648) :
    size_log_calls (run pow (State.initial F) steps).2 =
      size_logs_upto (malformed_recvs (run pow (State.initial F) steps).2) ∧
    size_log_calls (run pow (State.initial F) steps).2 ≤ 12 ∧
    (∀ more : List (Step F),
      11 ≤ malformed_recvs (run pow (State.initial F) steps).2 →
      malformed_recvs (run pow (State.initial F) (steps ++ more)).2 < 2147483648 →
      size_log_calls (run pow (run pow (State.initial F) steps).1 more).2 = 0) := by
  have h0 : (0 : Int) ≤ (State.initial F).size_errors := le_refl _
  have hz : (State.initial F).size_errors = 0 := rfl
  have h1 := run_size pow steps (State.initial F) h0 (by rw [hz]; omega)
  rw [hz] at h1
  have hL : size_logs_upto 0 = 0 := by decide
  rw [hL] at h1
  simp only [zero_add, Nat.add_zero] at h1
  refine ⟨h1.2, ?_, ?_⟩
  · rw [h1.2]; unfold size_logs_upto; split_ifs <;> omega
  · intro more h11 hlt2
    rw [run_append] at hlt2
    simp only [malformed_recvs, List.countP_append] at hlt2
    have h2 := run_size pow more (run pow (State.initial F) steps).1
      (by rw [h1.1]; omega)
      (by rw [h1.1]; unfold malformed_recvs; omega)
    rw [h1.1] at h2
    have h3 := h2.2
    unfold size_logs_upto at h3
    unfold malformed_recvs at h11 h3
    split_ifs at h3 <;> omega

theorem size_logging_capped_witness :
    malformed_recvs (run pow_q (State.initial ℚ)
      (List.replicate 12 (.cycle env_short))).2 < 2147483648 ∧
    size_log_calls (run pow_q (State.initial ℚ) (List.replicate 12 (.cycle env_short))).2 =
      size_logs_upto (malformed_recvs (run pow_q (State.initial ℚ)
        (List.replicate 12 (.cycle env_short))).2) ∧
    size_log_calls (run pow_q (State.initial ℚ)
      (List.replicate 12 (.cycle env_short))).2 ≤ 12 ∧
    size_log_calls (run pow_q (run pow_q (State.initial ℚ)
      (List.replicate 12 (.cycle env_short))).1 [.cycle env_short]).2 = 0 :=
  have h := size_logging_capped pow_q (List.replicate 12 (.cycle env_short)) (by decide)
  ⟨by decide, h.1, h.2.1, h.2.2 [.cycle env_short] (by decide) (by decide)⟩

/-- C3 fails as stated: eleven cycles, each receiving one 20-byte datagram,
make twelve calls of the logging sink on account of wrong-length datagrams
(eleven lines "Got 20 bytes" and the final notice), more than 11. -/
theorem size_logging_counterexample :
    malformed_recvs (run pow_q (State.initial ℚ)
      (List.replicate 11 (.cycle env_short))).2 = 11 ∧
    size_log_calls (run pow_q (State.initial ℚ)
      (List.replicate 11 (.cycle env_short))).2 = 12 ∧
    ¬ size_log_calls (run pow_q (State.initial ℚ)
      (List.replicate 11 (.cycle env_short))).2 ≤ 11 := by
  decide

/-! ## The tracker step -/

theorem cycle_delivers {F : Type} [Field F] [DecidableEq F] (pow : F → F → F)
    (env : CycleInput F) (st : State F) (pre : List (Vec6 F)) (S : Vec6 F)
    (hq : env.recvs = (pre ++ [S]).map well_formed) :
    get_and_handle_data pow env st =
      { st := (handle_data pow env { st with current_time := env.now } S).1,
        rest := [],
        events := (pre ++ [S]).map (fun d => Event.recv (well_formed d)) ++
          [.recv_would_block] ++
          (handle_data pow env { st with current_time := env.now } S).2 } := by
  simp only [get_and_handle_data, hq, drain_well_formed]
  simp

theorem writes_append {F : Type} (a b : List (Event F)) :
    writes (a ++ b) = writes a ++ writes b := by
  induction a with
  | nil => rfl
  | cons e a ih => cases e <;> simp [writes, ih]

theorem writes_recvs {F : Type} (l : List (Vec6 F)) :
    writes (l.map (fun d => Event.recv (well_formed d))) = [] := by
  induction l with
  | nil => rfl
  | cons a l ih => simpa [writes] using ih

theorem writes_cycle_delivers {F : Type} (l : List (Vec6 F)) (tl : List (Event F)) :
    writes (l.map (fun d => Event.recv (well_formed d)) ++ [.recv_would_block] ++ tl) =
      writes tl := by
  rw [writes_append, writes_append, writes_recvs]
  rfl

theorem drain_frame {F : Type} (q : List (RecvResult F)) :
    ∀ (st : State F) (data : Vec6 F) (got : Bool),
      (drain st data got q).st.first_time = st.first_time ∧
      (drain st data got q).st.initial_pilot_head_pos = st.initial_pilot_head_pos ∧
      writes (drain st data got q).events = [] := by
  induction q with
  | nil => intro st data got; simp [drain, writes]
  | cons r q ih =>
    intro st data got
    cases r with
    | error =>
      simp only [drain, capped_log, writes]
      split_ifs <;> simp [writes]
    | bytes n buf =>
      by_cases hn : n = sizeof_data
      · simpa [drain, hn, writes] using ih st buf true
      · simp only [drain, hn, ne_eq, not_false_eq_true, if_true, capped_log, writes]
        split_ifs <;> simp [writes]

theorem handle_data_latched {F : Type} [Field F] [DecidableEq F] (pow : F → F → F)
    (env : CycleInput F) (st : State F) (data : Vec6 F) (h : st.first_time = false) :
    (handle_data pow env st data).1.first_time = false ∧
    (handle_data pow env st data).1.initial_pilot_head_pos = st.initial_pilot_head_pos := by
  unfold handle_data
  by_cases hv : env.view_type = 1026 <;> cases hir : st.input_reset <;>
    simp [hv, h, hir]

theorem handle_data_not_ready {F : Type} [Field F] [DecidableEq F] (pow : F → F → F)
    (env : CycleInput F) (st : State F) (data : Vec6 F) (h : st.first_time = true)
    (hz : host_not_ready env.head = true) :
    (handle_data pow env st data).1.first_time = true ∧
    (handle_data pow env st data).2 = [] := by
  unfold handle_data
  by_cases hv : env.view_type = 1026 <;> simp [hv, h, hz]

theorem cycle_latched {F : Type} [Field F] [DecidableEq F] (pow : F → F → F)
    (env : CycleInput F) (st : State F) (h : st.first_time = false) :
    (get_and_handle_data pow env st).st.first_time = false ∧
    (get_and_handle_data pow env st).st.initial_pilot_head_pos =
      st.initial_pilot_head_pos := by
  have hd := drain_frame env.recvs { st with current_time := env.now } env.stack_data false
  simp only [get_and_handle_data]
  generalize drain { st with current_time := env.now } env.stack_data false env.recvs = r
    at hd ⊢
  obtain ⟨d1, d2, _⟩ := hd
  dsimp only at d1 d2
  rw [h] at d1
  have hh := handle_data_latched pow env r.st r.data d1
  rw [d2] at hh
  cases hex : r.exit with
  | returned => exact ⟨d1, d2⟩
  | broke =>
    cases hg : r.got_something with
    | false => exact ⟨d1, d2⟩
    | true => simpa using hh

theorem run_latched {F : Type} [Field F] [DecidableEq F] (pow : F → F → F)
    (steps : List (Step F)) :
    ∀ st : State F, st.first_time = false →
      (run pow st steps).1.first_time = false ∧
      (run pow st steps).1.initial_pilot_head_pos = st.initial_pilot_head_pos := by
  induction steps with
  | nil => intro st h; exact ⟨h, rfl⟩
  | cons a steps ih =>
    intro st h
    cases a with
    | menu b =>
      have h1 : (menu_handler b st).first_time = false := by
        unfold menu_handler; split_ifs <;> exact h
      have h2 : (menu_handler b st).initial_pilot_head_pos = st.initial_pilot_head_pos := by
        unfold menu_handler; split_ifs <;> rfl
      have := ih (menu_handler b st) h1
      simp only [run]
      exact ⟨this.1, by rw [this.2, h2]⟩
    | cycle env =>
      have hc := cycle_latched pow env st h
      have := ih (get_and_handle_data pow env st).st hc.1
      simp only [run]
      exact ⟨this.1, by rw [this.2, hc.2]⟩

theorem cycle_not_ready {F : Type} [Field F] [DecidableEq F] (pow : F → F → F)
    (env : CycleInput F) (st : State F) (h : st.first_time = true)
    (hz : host_not_ready env.head = true) :
    (get_and_handle_data pow env st).st.first_time = true ∧
    writes (get_and_handle_data pow env st).events = [] := by
  have hd := drain_frame env.recvs { st with current_time := env.now } env.stack_data false
  simp only [get_and_handle_data]
  generalize drain { st with current_time := env.now } env.stack_data false env.recvs = r
    at hd ⊢
  obtain ⟨d1, _, d3⟩ := hd
  dsimp only at d1
  rw [h] at d1
  have hh := handle_data_not_ready pow env r.st r.data d1 hz
  cases hex : r.exit with
  | returned => exact ⟨d1, d3⟩
  | broke =>
    cases hg : r.got_something with
    | false => exact ⟨d1, d3⟩
    | true =>
      refine ⟨hh.1, ?_⟩
      simp only [Bool.not_true, Bool.false_eq_true, if_false, writes_append, d3, hh.2]
      rfl

/-- C4 (the host-pose gate does not look at z): with the initial host pose not
yet captured, a well-formed datagram queued, the 3D cockpit view and a host
pose whose only non-zero component is z, the cycle returns from the gate: the
initial host pose is not captured (`first_time` stays true), nothing is logged
and the reset flag is still pending. -/
theorem host_gate_ignores_z :
    (env_only_z : CycleInput ℚ).head Z ≠ 0 ∧
    host_not_ready (env_only_z : CycleInput ℚ).head = true ∧
    (get_and_handle_data pow_q env_only_z (State.initial ℚ)).st.first_time = true ∧
    (get_and_handle_data pow_q env_only_z (State.initial ℚ)).st.input_reset = true ∧
    (get_and_handle_data pow_q env_only_z (State.initial ℚ)).events =
      [.recv (well_formed pose_C), .recv_would_block] :=
  ⟨by decide, by decide, by decide, by decide, rfl⟩

/-- The gate as coded: before capture, a cycle in the 3D cockpit that delivers a
sample captures the initial host pose exactly when one of x, y, yaw, pitch,
roll of the host pose is non-zero; z plays no part. -/
theorem capture_follows_coded_gate {F : Type} [Field F] [DecidableEq F] (pow : F → F → F)
    (env : CycleInput F) (st : State F) (pre : List (Vec6 F)) (S : Vec6 F)
    (hq : env.recvs = (pre ++ [S]).map well_formed) (hv : env.view_type = 1026)
    (hft : st.first_time = true) :
    (get_and_handle_data pow env st).st.first_time = false ↔
      ¬ (env.head X = 0 ∧ env.head Y = 0 ∧ env.head PSI = 0 ∧ env.head THE = 0 ∧
        env.head PHI = 0) := by
  rw [cycle_delivers pow env st pre S hq]
  unfold handle_data
  cases hn : host_not_ready env.head <;> cases hr : st.input_reset <;>
    simp [hv, hft, hn, hr] <;> simp [host_not_ready] at hn <;> tauto

theorem host_not_ready_of_zero {F : Type} [Field F] [DecidableEq F] (p : Vec6 F)
    (h : ∀ i, p i = 0) : host_not_ready p = true := by
  simp [host_not_ready, h]

/-- C5 (the initial host pose is latched once): from a state in which the
initial host pose has been captured (`first_time` false), every sequence of
cycles and menu actions, whatever the host channels read, leaves
`initial_pilot_head_pos` as it was and `first_time` false; and a cycle before
capture (`first_time` true) in which the six host channels read zero writes no
head channel and leaves `first_time` true, that is, tracking not started. -/
theorem initial_pose_latched_once {F : Type} [Field F] [DecidableEq F] (pow : F → F → F)
    (st : State F) (steps : List (Step F)) (env : CycleInput F) :
    (st.first_time = false →
      (run pow st steps).1.initial_pilot_head_pos = st.initial_pilot_head_pos ∧
      (run pow st steps).1.first_time = false) ∧
    (st.first_time = true → (∀ i, env.head i = 0) →
      writes (get_and_handle_data pow env st).events = [] ∧
      (get_and_handle_data pow env st).st.first_time = true) := by
  constructor
  · intro h
    exact ⟨(run_latched pow steps st h).2, (run_latched pow steps st h).1⟩
  · intro h hz
    have := cycle_not_ready pow env st h (host_not_ready_of_zero env.head hz)
    exact ⟨this.2, this.1⟩

theorem initial_pose_latched_once_witness :
    (state_tracking : State ℚ).first_time = false ∧
    (run pow_q state_tracking
      [.cycle env_moved, .menu true, .cycle env_ABC]).1.initial_pilot_head_pos =
        state_tracking.initial_pilot_head_pos ∧
    (State.initial ℚ).first_time = true ∧
    (∀ i, (env_zero : CycleInput ℚ).head i = 0) ∧
    writes (get_and_handle_data pow_q env_zero (State.initial ℚ)).events = [] ∧
    (get_and_handle_data pow_q env_zero (State.initial ℚ)).st.first_time = true :=
  ⟨rfl,
    ((initial_pose_latched_once pow_q state_tracking
      [.cycle env_moved, .menu true, .cycle env_ABC] env_zero).1 rfl).1,
    rfl, fun _ => rfl,
    ((initial_pose_latched_once pow_q (State.initial ℚ) [] env_zero).2 rfl (fun _ => rfl)).1,
    ((initial_pose_latched_once pow_q (State.initial ℚ) [] env_zero).2 rfl (fun _ => rfl)).2⟩

/-- The reset seeding cycle, for the cycles that the first-time block of the code
lets through: when `input_reset` is set and a cycle in the 3D
cockpit view delivers the sample `S` past the first-time block (the initial
host pose is already captured, or it is captured in this cycle because the
gate test of the code lets the host pose through), the cycle sets `first_data`
and `prev_data` to `S`, `prev_time` to the current time, clears `input_reset`,
changes nothing else of the tracker, and writes none of the head channels. -/
theorem reset_seeding {F : Type} [Field F] [DecidableEq F] (pow : F → F → F)
    (env : CycleInput F) (st : State F) (pre : List (Vec6 F)) (S : Vec6 F)
    (hq : env.recvs = (pre ++ [S]).map well_formed) (hv : env.view_type = 1026)
    (hr : st.input_reset = true)
    (hready : st.first_time = false ∨ host_not_ready env.head = false) :
    (get_and_handle_data pow env st).st =
      { st with
        current_time := env.now
        initial_pilot_head_pos :=
          if st.first_time then env.head else st.initial_pilot_head_pos
        first_time := false
        first_data := S
        prev_data := S
        prev_time := env.now
        input_reset := false } ∧
    writes (get_and_handle_data pow env st).events = [] := by
  rw [cycle_delivers pow env st pre S hq]
  simp only [writes_cycle_delivers]
  unfold handle_data
  rcases hready with h | h
  · simp [hv, hr, h, writes]
  · cases hft : st.first_time <;> simp [hv, hr, h, hft, writes]

theorem reset_seeding_witness :
    (env_only_z : CycleInput ℚ).recvs = (([] : List (Vec6 ℚ)) ++ [pose_C]).map well_formed ∧
    (env_only_z : CycleInput ℚ).view_type = 1026 ∧
    ({ state_tracking with input_reset := true } : State ℚ).input_reset = true ∧
    (get_and_handle_data pow_q env_only_z
      { state_tracking with input_reset := true }).st.first_data = pose_C ∧
    (get_and_handle_data pow_q env_only_z
      { state_tracking with input_reset := true }).st.prev_time = 2 ∧
    writes (get_and_handle_data pow_q env_only_z
      { state_tracking with input_reset := true }).events = [] :=
  have h := reset_seeding pow_q env_only_z { state_tracking with input_reset := true }
    [] pose_C rfl rfl rfl (Or.inl rfl)
  ⟨rfl, rfl, rfl, by rw [h.1], by rw [h.1]; rfl, h.2⟩

/-- C6 (a reset is not seeded behind the host-pose gate): at plug-in load, with
the reset pending, the 3D cockpit view, the well-formed datagram C delivered
and a host pose that is not all-zero (its z is 1), the cycle returns from the
first-time block before the seeding: `input_reset` is still set, `first_data`
and `prev_data` are not C and `prev_time` is not the current time 2. -/
theorem reset_not_seeded_behind_gate :
    (State.initial ℚ).input_reset = true ∧
    (env_only_z : CycleInput ℚ).view_type = 1026 ∧
    (env_only_z : CycleInput ℚ).recvs = [well_formed pose_C] ∧
    ¬ (∀ i, (env_only_z : CycleInput ℚ).head i = 0) ∧
    (get_and_handle_data pow_q env_only_z (State.initial ℚ)).st.input_reset = true ∧
    (get_and_handle_data pow_q env_only_z (State.initial ℚ)).st.first_data X ≠ pose_C X ∧
    (get_and_handle_data pow_q env_only_z (State.initial ℚ)).st.prev_data X ≠ pose_C X ∧
    (get_and_handle_data pow_q env_only_z (State.initial ℚ)).st.prev_time ≠
      (env_only_z : CycleInput ℚ).now ∧
    writes (get_and_handle_data pow_q env_only_z (State.initial ℚ)).events = [] :=
  ⟨rfl, rfl, rfl, fun h => absurd (h Z) (by decide), by decide, by decide, by decide,
    by decide, rfl⟩

/-! ## The smoothing and the output formula -/

theorem handle_data_reset {F : Type} [Field F] [DecidableEq F] (pow : F → F → F)
    (env : CycleInput F) (st : State F) (data : Vec6 F) (hv : env.view_type = 1026)
    (hft : st.first_time = false) (hr : st.input_reset = true) :
    handle_data pow env st data =
      ({ st with first_data := data, prev_data := data, prev_time := st.current_time,
                 input_reset := false }, []) := by
  unfold handle_data
  simp [hv, hft, hr]

theorem handle_data_normal {F : Type} [Field F] [DecidableEq F] (pow : F → F → F)
    (env : CycleInput F) (st : State F) (data : Vec6 F) (hv : env.view_type = 1026)
    (hft : st.first_time = false) (hr : st.input_reset = false) :
    handle_data pow env st data =
      ({ st with
          num_logs := if st.num_logs < 100 then int_incr st.num_logs else st.num_logs
          prev_data := average_data pow data st.prev_data (st.current_time - st.prev_time)
          prev_time := st.current_time },
        set_head (average_data pow data st.prev_data (st.current_time - st.prev_time))
          st.first_data st.initial_pilot_head_pos ++
          (if st.num_logs < 100 then [.log .setting] else [])) := by
  unfold handle_data
  simp [hv, hft, hr]

theorem writes_set_head {F : Type} [Field F] (data first_data initial : Vec6 F)
    (b : Bool) :
    writes (set_head data first_data initial ++
      (if b then [(.log .setting : Event F)] else [])) =
      [ (X, (data X - first_data X) * X_FACTOR + initial X),
        (Y, (data Y - first_data Y) * Y_FACTOR + initial Y),
        (Z, (data Z - first_data Z) * Z_FACTOR + initial Z),
        (PSI, (data PSI - first_data PSI) * PSI_FACTOR + initial PSI),
        (THE, (data THE - first_data THE) * THE_FACTOR + initial THE) ] := by
  cases b <;> simp [set_head, writes]

theorem average_data_real (curr prev : Vec6 ℝ) (t : ℝ) :
    average_data Real.rpow curr prev t = spec_smoothed ((0.1 : ℝ) ^ t) curr prev := by
  funext i
  have h : (ALPHA : ℝ) = 0.1 := by norm_num [ALPHA]
  simp only [average_data, spec_smoothed, Real.rpow_eq_pow, h]

theorem cycle_normal (env : CycleInput ℝ) (st : State ℝ) (pre : List (Vec6 ℝ)) (S : Vec6 ℝ)
    (hq : env.recvs = (pre ++ [S]).map well_formed) (hv : env.view_type = 1026)
    (hft : st.first_time = false) (hr : st.input_reset = false) :
    (get_and_handle_data Real.rpow env st).st =
      { st with
        current_time := env.now
        num_logs := if st.num_logs < 100 then int_incr st.num_logs else st.num_logs
        prev_data := spec_smoothed ((0.1 : ℝ) ^ (env.now - st.prev_time)) S st.prev_data
        prev_time := env.now } ∧
    writes (get_and_handle_data Real.rpow env st).events =
      [ (X, (spec_smoothed ((0.1 : ℝ) ^ (env.now - st.prev_time)) S st.prev_data X -
          st.first_data X) * 0.015 + st.initial_pilot_head_pos X),
        (Y, (spec_smoothed ((0.1 : ℝ) ^ (env.now - st.prev_time)) S st.prev_data Y -
          st.first_data Y) * (-0.015) + st.initial_pilot_head_pos Y),
        (Z, (spec_smoothed ((0.1 : ℝ) ^ (env.now - st.prev_time)) S st.prev_data Z -
          st.first_data Z) * 0.02 + st.initial_pilot_head_pos Z),
        (PSI, (spec_smoothed ((0.1 : ℝ) ^ (env.now - st.prev_time)) S st.prev_data PSI -
          st.first_data PSI) * 2 + st.initial_pilot_head_pos PSI),
        (THE, (spec_smoothed ((0.1 : ℝ) ^ (env.now - st.prev_time)) S st.prev_data THE -
          st.first_data THE) * 2 + st.initial_pilot_head_pos THE) ] := by
  rw [cycle_delivers Real.rpow env st pre S hq,
    handle_data_normal Real.rpow env { st with current_time := env.now } S hv hft hr]
  simp only [writes_cycle_delivers]
  have hw := writes_set_head
    (average_data Real.rpow S st.prev_data (env.now - st.prev_time))
    st.first_data st.initial_pilot_head_pos (decide (st.num_logs < 100))
  simp only [decide_eq_true_eq] at hw
  refine ⟨?_, ?_⟩
  · simp only [average_data_real]
  · rw [hw, average_data_real]
    norm_num [X_FACTOR, Y_FACTOR, Z_FACTOR, PSI_FACTOR, THE_FACTOR]

theorem cycle_seeds {F : Type} [Field F] [DecidableEq F] (pow : F → F → F)
    (env : CycleInput F) (st : State F) (pre : List (Vec6 F)) (S : Vec6 F)
    (hq : env.recvs = (pre ++ [S]).map well_formed) (hv : env.view_type = 1026)
    (hft : st.first_time = false) (hr : st.input_reset = true) :
    (get_and_handle_data pow env st).st =
      { st with current_time := env.now, first_data := S, prev_data := S,
                prev_time := env.now, input_reset := false } ∧
    writes (get_and_handle_data pow env st).events = [] := by
  rw [cycle_delivers pow env st pre S hq,
    handle_data_reset pow env { st with current_time := env.now } S hv hft hr]
  simp only [writes_cycle_delivers]
  exact ⟨trivial, rfl⟩

theorem reset_then_two_samples (st : State ℝ) (e1 e2 : CycleInput ℝ)
    (pre1 pre2 : List (Vec6 ℝ)) (S S' : Vec6 ℝ)
    (hft : st.first_time = false)
    (hq1 : e1.recvs = (pre1 ++ [S]).map well_formed) (hv1 : e1.view_type = 1026)
    (hq2 : e2.recvs = (pre2 ++ [S']).map well_formed) (hv2 : e2.view_type = 1026) :
    writes (run Real.rpow st [.menu true, .cycle e1, .cycle e2]).2 =
      [ (X, (1 - (0.1 : ℝ) ^ (e2.now - e1.now)) * (S' X - S X) * 0.015 +
          st.initial_pilot_head_pos X),
        (Y, (1 - (0.1 : ℝ) ^ (e2.now - e1.now)) * (S' Y - S Y) * (-0.015) +
          st.initial_pilot_head_pos Y),
        (Z, (1 - (0.1 : ℝ) ^ (e2.now - e1.now)) * (S' Z - S Z) * 0.02 +
          st.initial_pilot_head_pos Z),
        (PSI, (1 - (0.1 : ℝ) ^ (e2.now - e1.now)) * (S' PSI - S PSI) * 2 +
          st.initial_pilot_head_pos PSI),
        (THE, (1 - (0.1 : ℝ) ^ (e2.now - e1.now)) * (S' THE - S THE) * 2 +
          st.initial_pilot_head_pos THE) ] := by
  have h1 := cycle_seeds Real.rpow e1 (menu_handler true st) pre1 S hq1 hv1 hft rfl
  have h2 := cycle_normal e2 (get_and_handle_data Real.rpow e1 (menu_handler true st)).st
    pre2 S' hq2 hv2 (by rw [h1.1]; exact hft) (by rw [h1.1])
  simp only [run, writes_append, h1.2, h2.2, List.nil_append, writes, List.append_nil]
  rw [h1.1]
  simp only [menu_handler, if_true, spec_smoothed, List.cons.injEq, Prod.mk.injEq, true_and,
    and_true]
  refine ⟨?_, ?_, ?_, ?_, ?_⟩ <;> ring

/-- C7 (reset erases history): from a state with the initial host pose
captured, requesting a reset, then a cycle in the 3D cockpit delivering `S` at
time `t`, then one delivering `S'` at time `t'`, writes exactly the five head
channels x, y, z, yaw, pitch, each with
`(1 - 0.1^(t'-t)) * (S'[i] - S[i]) * factor[i] + initial_host_pose[i]` in real
arithmetic; hence any other state with the same captured initial host pose,
whatever its reference pose, previous pose and previous time, gives the same
output. -/
theorem reset_erases_history (st : State ℝ) (e1 e2 : CycleInput ℝ)
    (pre1 pre2 : List (Vec6 ℝ)) (S S' : Vec6 ℝ)
    (hft : st.first_time = false)
    (hq1 : e1.recvs = (pre1 ++ [S]).map well_formed) (hv1 : e1.view_type = 1026)
    (hq2 : e2.recvs = (pre2 ++ [S']).map well_formed) (hv2 : e2.view_type = 1026) :
    writes (run Real.rpow st [.menu true, .cycle e1, .cycle e2]).2 =
      [ (X, (1 - (0.1 : ℝ) ^ (e2.now - e1.now)) * (S' X - S X) * 0.015 +
          st.initial_pilot_head_pos X),
        (Y, (1 - (0.1 : ℝ) ^ (e2.now - e1.now)) * (S' Y - S Y) * (-0.015) +
          st.initial_pilot_head_pos Y),
        (Z, (1 - (0.1 : ℝ) ^ (e2.now - e1.now)) * (S' Z - S Z) * 0.02 +
          st.initial_pilot_head_pos Z),
        (PSI, (1 - (0.1 : ℝ) ^ (e2.now - e1.now)) * (S' PSI - S PSI) * 2 +
          st.initial_pilot_head_pos PSI),
        (THE, (1 - (0.1 : ℝ) ^ (e2.now - e1.now)) * (S' THE - S THE) * 2 +
          st.initial_pilot_head_pos THE) ] ∧
    ∀ st2 : State ℝ, st2.first_time = false →
      st2.initial_pilot_head_pos = st.initial_pilot_head_pos →
      writes (run Real.rpow st2 [.menu true, .cycle e1, .cycle e2]).2 =
        writes (run Real.rpow st [.menu true, .cycle e1, .cycle e2]).2 := by
  refine ⟨reset_then_two_samples st e1 e2 pre1 pre2 S S' hft hq1 hv1 hq2 hv2, ?_⟩
  intro st2 hft2 hinit
  rw [reset_then_two_samples st e1 e2 pre1 pre2 S S' hft hq1 hv1 hq2 hv2,
    reset_then_two_samples st2 e1 e2 pre1 pre2 S S' hft2 hq1 hv1 hq2 hv2, hinit]

theorem reset_erases_history_witness :
    (state_tracking : State ℝ).first_time = false ∧
    (env_moved : CycleInput ℝ).recvs = (([] : List (Vec6 ℝ)) ++ [pose_A]).map well_formed ∧
    (env_moved : CycleInput ℝ).view_type = 1026 ∧
    (env_later : CycleInput ℝ).recvs = (([] : List (Vec6 ℝ)) ++ [pose_B]).map well_formed ∧
    (env_later : CycleInput ℝ).view_type = 1026 ∧
    (state_other_history : State ℝ).first_time = false ∧
    (state_other_history : State ℝ).initial_pilot_head_pos =
      (state_tracking : State ℝ).initial_pilot_head_pos ∧
    writes (run Real.rpow state_other_history
        [.menu true, .cycle env_moved, .cycle env_later]).2 =
      writes (run Real.rpow state_tracking
        [.menu true, .cycle env_moved, .cycle env_later]).2 :=
  ⟨rfl, rfl, rfl, rfl, rfl, rfl, rfl,
    (reset_erases_history state_tracking env_moved env_later [] [] pose_A pose_B
      rfl rfl rfl rfl rfl).2 state_other_history rfl rfl⟩

/-- C8 (the normal tracker step is the specified formula): with the initial
host pose captured and no reset pending, a cycle in the 3D cockpit delivering
the sample `S` at time `now` computes, in real arithmetic, for all six axes
`smoothed[i] = (1 - w) * S[i] + w * prev_data[i]` with
`w = 0.1^(now - prev_time)`, writes
`(smoothed[i] - first_data[i]) * factor[i] + initial_pilot_head_pos[i]` to the
channels x, y, z, yaw, pitch with the factors 0.015, -0.015, 0.02, 2, 2 and to
no other channel (roll is not written), and then has `prev_data = smoothed`
and `prev_time = now`; of the rest of the state only `current_time` and the
log counter change. -/
theorem normal_step (env : CycleInput ℝ) (st : State ℝ) (pre : List (Vec6 ℝ)) (S : Vec6 ℝ)
    (hq : env.recvs = (pre ++ [S]).map well_formed) (hv : env.view_type = 1026)
    (hft : st.first_time = false) (hr : st.input_reset = false) :
    (get_and_handle_data Real.rpow env st).st =
      { st with
        current_time := env.now
        num_logs := if st.num_logs < 100 then int_incr st.num_logs else st.num_logs
        prev_data := spec_smoothed ((0.1 : ℝ) ^ (env.now - st.prev_time)) S st.prev_data
        prev_time := env.now } ∧
    writes (get_and_handle_data Real.rpow env st).events =
      [ (X, (spec_smoothed ((0.1 : ℝ) ^ (env.now - st.prev_time)) S st.prev_data X -
          st.first_data X) * 0.015 + st.initial_pilot_head_pos X),
        (Y, (spec_smoothed ((0.1 : ℝ) ^ (env.now - st.prev_time)) S st.prev_data Y -
          st.first_data Y) * (-0.015) + st.initial_pilot_head_pos Y),
        (Z, (spec_smoothed ((0.1 : ℝ) ^ (env.now - st.prev_time)) S st.prev_data Z -
          st.first_data Z) * 0.02 + st.initial_pilot_head_pos Z),
        (PSI, (spec_smoothed ((0.1 : ℝ) ^ (env.now - st.prev_time)) S st.prev_data PSI -
          st.first_data PSI) * 2 + st.initial_pilot_head_pos PSI),
        (THE, (spec_smoothed ((0.1 : ℝ) ^ (env.now - st.prev_time)) S st.prev_data THE -
          st.first_data THE) * 2 + st.initial_pilot_head_pos THE) ] ∧
    (∀ v : ℝ, (PHI, v) ∉ writes (get_and_handle_data Real.rpow env st).events) := by
  have h := cycle_normal env st pre S hq hv hft hr
  refine ⟨h.1, h.2, ?_⟩
  intro v
  rw [h.2]
  simp [X, Y, Z, PSI, THE, PHI]

theorem normal_step_witness :
    (env_ABC : CycleInput ℝ).recvs = ([pose_A, pose_B] ++ [pose_C]).map well_formed ∧
    (env_ABC : CycleInput ℝ).view_type = 1026 ∧
    (state_tracking : State ℝ).first_time = false ∧
    (state_tracking : State ℝ).input_reset = false ∧
    (writes (get_and_handle_data Real.rpow env_ABC state_tracking).events).head? =
      some (X, 11.5 - 1.5 * (0.1 : ℝ) ^ ((2 : ℝ) - 1)) := by
  have h := normal_step env_ABC state_tracking [pose_A, pose_B] pose_C rfl rfl rfl rfl
  refine ⟨rfl, rfl, rfl, rfl, ?_⟩
  rw [h.2.1]
  simp only [List.head?_cons, spec_smoothed, state_tracking, pose_C, env_ABC, cockpit_cycle,
    Option.some.injEq, Prod.mk.injEq, true_and, X]
  norm_num

/-! ## Smoothing on a constant-velocity feed -/

theorem smoothing_error_step (x0 v s0 : Vec6 ℝ) (dt : ℝ) (k : Nat) (i : Fin 6) :
    smoothed_feed Real.rpow (constant_velocity_feed x0 v dt) dt s0 (k + 1) i -
        constant_velocity_feed x0 v dt (k + 1) i =
      (0.1 : ℝ) ^ dt *
        (smoothed_feed Real.rpow (constant_velocity_feed x0 v dt) dt s0 k i -
          constant_velocity_feed x0 v dt k i - v i * dt) := by
  have h : (ALPHA : ℝ) = 0.1 := by norm_num [ALPHA]
  simp only [smoothed_feed, average_data, constant_velocity_feed, Real.rpow_eq_pow, h]
  push_cast
  ring

theorem rpow_nat_mul (dt : ℝ) (n : Nat) :
    (0.1 : ℝ) ^ ((n : ℝ) * dt) = ((0.1 : ℝ) ^ dt) ^ n := by
  rw [mul_comm, Real.rpow_mul (by norm_num), Real.rpow_natCast]

theorem smoothing_lag_bound (x0 v s0 : Vec6 ℝ) (dt : ℝ) (hdt : 0 < dt) (i : Fin 6) :
    ∀ n : Nat,
      |smoothed_feed Real.rpow (constant_velocity_feed x0 v dt) dt s0 n i -
          constant_velocity_feed x0 v dt n i| ≤
        ((0.1 : ℝ) ^ dt) ^ n * |s0 i - x0 i| +
          |v i| * dt * ((0.1 : ℝ) ^ dt / (1 - (0.1 : ℝ) ^ dt)) := by
  have hw0 : 0 < (0.1 : ℝ) ^ dt := Real.rpow_pos_of_pos (by norm_num) dt
  have hw1 : (0.1 : ℝ) ^ dt < 1 := Real.rpow_lt_one (by norm_num) (by norm_num) hdt
  have h1w : 0 < 1 - (0.1 : ℝ) ^ dt := by linarith
  have hc : 0 ≤ |v i| * dt * ((0.1 : ℝ) ^ dt / (1 - (0.1 : ℝ) ^ dt)) := by positivity
  intro n
  induction n with
  | zero =>
    simp only [smoothed_feed, constant_velocity_feed, pow_zero, one_mul, Nat.cast_zero,
      zero_mul, add_zero]
    linarith
  | succ k ih =>
    rw [smoothing_error_step, abs_mul, abs_of_pos hw0]
    have htri : |smoothed_feed Real.rpow (constant_velocity_feed x0 v dt) dt s0 k i -
        constant_velocity_feed x0 v dt k i - v i * dt| ≤
        |smoothed_feed Real.rpow (constant_velocity_feed x0 v dt) dt s0 k i -
          constant_velocity_feed x0 v dt k i| + |v i| * dt := by
      have := abs_sub (smoothed_feed Real.rpow (constant_velocity_feed x0 v dt) dt s0 k i -
        constant_velocity_feed x0 v dt k i) (v i * dt)
      rw [abs_mul, abs_of_pos hdt] at this
      exact this
    have hfix : (0.1 : ℝ) ^ dt *
        (|v i| * dt * ((0.1 : ℝ) ^ dt / (1 - (0.1 : ℝ) ^ dt)) + |v i| * dt) =
        |v i| * dt * ((0.1 : ℝ) ^ dt / (1 - (0.1 : ℝ) ^ dt)) := by
      field_simp
      ring
    calc (0.1 : ℝ) ^ dt *
          |smoothed_feed Real.rpow (constant_velocity_feed x0 v dt) dt s0 k i -
            constant_velocity_feed x0 v dt k i - v i * dt|
        ≤ (0.1 : ℝ) ^ dt * (((0.1 : ℝ) ^ dt) ^ k * |s0 i - x0 i| +
            |v i| * dt * ((0.1 : ℝ) ^ dt / (1 - (0.1 : ℝ) ^ dt)) + |v i| * dt) := by
          apply mul_le_mul_of_nonneg_left _ hw0.le
          linarith
      _ = ((0.1 : ℝ) ^ dt) ^ (k + 1) * |s0 i - x0 i| +
            (0.1 : ℝ) ^ dt *
              (|v i| * dt * ((0.1 : ℝ) ^ dt / (1 - (0.1 : ℝ) ^ dt)) + |v i| * dt) := by
          ring
      _ = ((0.1 : ℝ) ^ dt) ^ (k + 1) * |s0 i - x0 i| +
            |v i| * dt * ((0.1 : ℝ) ^ dt / (1 - (0.1 : ℝ) ^ dt)) := by
          rw [hfix]

/-- C9, as the code has it (smoothing on a constant-velocity feed): iterating
`average_data` at the fixed interval `dt > 0` on the feed `x_k = x0 + k*v*dt`
from the smoothed value `s0` gives, in real arithmetic and on every axis,
`|s_n - x_n| <= 0.1^(n*dt) * |s0 - x0| + |v| * dt * 0.1^dt / (1 - 0.1^dt)`:
the initial error decays as claimed, and a lag proportional to the velocity is
added.  On an axis with velocity zero the bound is the claimed
`0.1^(n*dt) * |s0 - x0|`. -/
theorem smoothing_error_bound (x0 v s0 : Vec6 ℝ) (dt : ℝ) (hdt : 0 < dt) (n : Nat)
    (i : Fin 6) :
    |smoothed_feed Real.rpow (constant_velocity_feed x0 v dt) dt s0 n i -
        constant_velocity_feed x0 v dt n i| ≤
      (0.1 : ℝ) ^ ((n : ℝ) * dt) * |s0 i - x0 i| +
        |v i| * dt * ((0.1 : ℝ) ^ dt / (1 - (0.1 : ℝ) ^ dt)) ∧
    (v i = 0 →
      |smoothed_feed Real.rpow (constant_velocity_feed x0 v dt) dt s0 n i -
          constant_velocity_feed x0 v dt n i| ≤
        (0.1 : ℝ) ^ ((n : ℝ) * dt) * |s0 i - x0 i|) := by
  have h := smoothing_lag_bound x0 v s0 dt hdt i n
  rw [← rpow_nat_mul] at h
  refine ⟨h, ?_⟩
  intro hv
  simpa [hv] using h

theorem smoothing_error_bound_witness :
    (0 : ℝ) < 1 ∧
    |smoothed_feed Real.rpow (constant_velocity_feed (fun _ => 0) (fun _ => 1) 1) 1
          (fun _ => 0) 2 X -
        constant_velocity_feed (fun _ => 0) (fun _ => 1) (1 : ℝ) 2 X| ≤
      (0.1 : ℝ) ^ (((2 : Nat) : ℝ) * 1) * |(0 : ℝ) - 0| +
        |(1 : ℝ)| * 1 * ((0.1 : ℝ) ^ (1 : ℝ) / (1 - (0.1 : ℝ) ^ (1 : ℝ))) :=
  ⟨one_pos,
    (smoothing_error_bound (fun _ => 0) (fun _ => 1) (fun _ => 0) 1 one_pos 2 X).1⟩

/-- C9 fails as stated: on the feed `x_k = k` (start 0, velocity 1, interval 1)
smoothed from `s0 = 0`, the initial error is zero, yet after one step the
smoothed value is 0.9 against the true value 1, so the error 0.1 exceeds
`0.1^(1*1) * |s0 - x0| = 0`. -/
theorem smoothing_convergence_counterexample :
    ¬ (|smoothed_feed Real.rpow (constant_velocity_feed (fun _ => 0) (fun _ => 1) 1) 1
          (fun _ => 0) 1 X -
        constant_velocity_feed (fun _ => 0) (fun _ => 1) (1 : ℝ) 1 X| ≤
      (0.1 : ℝ) ^ (((1 : Nat) : ℝ) * 1) * |(0 : ℝ) - 0|) := by
  have h : (ALPHA : ℝ) = 0.1 := by norm_num [ALPHA]
  simp only [smoothed_feed, average_data, constant_velocity_feed, Real.rpow_eq_pow, h,
    Real.rpow_one]
  norm_num

/-! ## Start-up -/

theorem find_refs_never_close (env : StartInput) (refs : List (DataRef × Int)) :
    StartEvent.closesocket ∉ (find_refs_then_finish env refs).2 := by
  induction refs with
  | nil => simp [find_refs_then_finish]
  | cons a refs ih =>
    obtain ⟨name, ty⟩ := a
    simp only [find_refs_then_finish, find_data_ref]
    cases hf : env.find name with
    | none => simp
    | some t =>
      by_cases ht : t = ty
      · simpa [ht] using ih
      · simp [ht]

/-- The failure paths of `XPluginStart` that close the socket: after the socket
has been created, a start that returns 0 has closed it exactly when `bind`
failed or, outside Windows, `fcntl` failed. -/
theorem XPluginStart_closes_iff (env : StartInput) (hs : env.socket_ok = true)
    (h0 : (XPluginStart env).1 = 0) :
    socket_left_open (XPluginStart env).2 = false ↔
      (env.bind_ok = false ∨ (env.nonblocking_ok = false ∧ env.IBM = false)) := by
  have hnc := find_refs_never_close env data_refs
  unfold XPluginStart socket_left_open at *
  cases hb : env.bind_ok <;> cases hn : env.nonblocking_ok <;> cases hi : env.IBM <;>
    simp_all

/-- C10 (a failed data-ref lookup leaves the socket open): on Linux or macOS,
with the socket created, bound and made non-blocking and the first data-ref
lookup failing, `XPluginStart` returns 0 having logged "Starting" and "Could
not find", and never calls `CLOSESOCKET`: the socket is left open. -/
theorem XPluginStart_leaves_socket_open :
    (XPluginStart start_lookup_fails).1 = 0 ∧
    (XPluginStart start_lookup_fails).2 =
      [.socket_opened, .log .starting, .log (.could_not_find .view_type)] ∧
    socket_left_open (XPluginStart start_lookup_fails).2 = true := by
  decide

/-! ## The elapsed time of the smoothing step -/

theorem drain_frame_tracker {F : Type} (q : List (RecvResult F)) :
    ∀ (st : State F) (data : Vec6 F) (got : Bool),
      (drain st data got q).st.input_reset = st.input_reset ∧
      (drain st data got q).st.prev_time = st.prev_time ∧
      (drain st data got q).st.current_time = st.current_time ∧
      (drain st data got q).st.prev_data = st.prev_data := by
  induction q with
  | nil => intro st data got; simp [drain]
  | cons r q ih =>
    intro st data got
    cases r with
    | error => simp [drain]
    | bytes n buf =>
      by_cases hn : n = sizeof_data
      · simpa [drain, hn] using ih st buf true
      · simp [drain, hn]

theorem handle_data_prev_time (pow : ℝ → ℝ → ℝ) (env : CycleInput ℝ) (st : State ℝ)
    (data : Vec6 ℝ) (hi : ℝ)
    (h1 : st.input_reset = false → st.prev_time ≤ hi) (h2 : st.current_time ≤ hi) :
    (handle_data pow env st data).1.input_reset = false →
      (handle_data pow env st data).1.prev_time ≤ hi := by
  unfold handle_data
  by_cases hv : env.view_type = 1026 <;> cases hft : st.first_time <;>
    cases hnr : host_not_ready env.head <;> cases hir : st.input_reset <;>
    simp_all

theorem cycle_prev_time (pow : ℝ → ℝ → ℝ) (env : CycleInput ℝ) (st : State ℝ) (hi : ℝ)
    (h1 : st.input_reset = false → st.prev_time ≤ hi) (h2 : env.now ≤ hi) :
    (get_and_handle_data pow env st).st.input_reset = false →
      (get_and_handle_data pow env st).st.prev_time ≤ hi := by
  have hd := drain_frame_tracker env.recvs { st with current_time := env.now }
    env.stack_data false
  simp only [get_and_handle_data]
  generalize drain { st with current_time := env.now } env.stack_data false env.recvs = r
    at hd ⊢
  obtain ⟨d1, d2, d3, _⟩ := hd
  dsimp only at d1 d2 d3
  have hr1 : r.st.input_reset = false → r.st.prev_time ≤ hi := by
    rw [d1, d2]; exact h1
  have hh := handle_data_prev_time pow env r.st r.data hi hr1 (by rw [d3]; exact h2)
  cases hex : r.exit with
  | returned => simpa using hr1
  | broke =>
    cases hg : r.got_something with
    | false => simpa using hr1
    | true => simpa using hh

theorem run_prev_time (pow : ℝ → ℝ → ℝ) (steps : List (Step ℝ)) :
    ∀ (st : State ℝ) (hi : ℝ), (st.input_reset = false → st.prev_time ≤ hi) →
      (∀ t ∈ clock_values steps, t ≤ hi) →
      (run pow st steps).1.input_reset = false →
        (run pow st steps).1.prev_time ≤ hi := by
  induction steps with
  | nil => intro st hi h1 _; simpa [run] using h1
  | cons a steps ih =>
    intro st hi h1 hc
    cases a with
    | menu b =>
      simp only [run]
      apply ih (menu_handler b st) hi _ (by simpa [clock_values] using hc)
      unfold menu_handler
      cases b <;> simp
      exact h1
    | cycle env =>
      simp only [run]
      simp only [clock_values, List.mem_cons, forall_eq_or_imp] at hc
      exact ih (get_and_handle_data pow env st).st hi
        (cycle_prev_time pow env st hi h1 hc.1) hc.2

theorem clock_values_append {F : Type} (s1 s2 : List (Step F)) :
    clock_values (s1 ++ s2) = clock_values s1 ++ clock_values s2 := by
  induction s1 with
  | nil => rfl
  | cons a s1 ih => cases a <;> simp [clock_values, ih]

theorem time_diff_of_cycle_some {F : Type} [Field F] [DecidableEq F] (env : CycleInput F)
    (st : State F) (td : F) (h : time_diff_of_cycle env st = some td) :
    st.input_reset = false ∧ td = env.now - st.prev_time := by
  have hd := drain_frame_tracker env.recvs { st with current_time := env.now }
    env.stack_data false
  unfold time_diff_of_cycle at h
  generalize drain { st with current_time := env.now } env.stack_data false env.recvs = r
    at hd h
  obtain ⟨d1, d2, d3, _⟩ := hd
  dsimp only at d1 d2 d3 h
  split_ifs at h with hc
  rw [d3, d2] at h
  exact ⟨by rw [← d1]; exact hc.2.2.2.2, (Option.some.inj h).symm⟩

/-- The cycles for which `time_diff_of_cycle` gives a value are the cycles that
smooth: the value is the `time_diff` handed to `average_data`, whose result
becomes `prev_data`, and the five head channels are written; every other cycle
writes no head channel. -/
theorem time_diff_of_cycle_smooths {F : Type} [Field F] [DecidableEq F] (pow : F → F → F)
    (env : CycleInput F) (st : State F) :
    (∀ td, time_diff_of_cycle env st = some td →
      (get_and_handle_data pow env st).st.prev_data =
        average_data pow
          (drain { st with current_time := env.now } env.stack_data false env.recvs).data
          st.prev_data td ∧
      (get_and_handle_data pow env st).st.prev_time = env.now ∧
      (writes (get_and_handle_data pow env st).events).length = 5) ∧
    (time_diff_of_cycle env st = none →
      writes (get_and_handle_data pow env st).events = []) := by
  have hd := drain_frame_tracker env.recvs { st with current_time := env.now }
    env.stack_data false
  have hf := drain_frame env.recvs { st with current_time := env.now } env.stack_data false
  simp only [time_diff_of_cycle, get_and_handle_data]
  generalize drain { st with current_time := env.now } env.stack_data false env.recvs = r
    at hd hf ⊢
  obtain ⟨d1, d2, d3, d4⟩ := hd
  obtain ⟨_, _, f3⟩ := hf
  dsimp only at d1 d2 d3 d4
  constructor
  · intro td h
    split_ifs at h with hc
    obtain ⟨c1, c2, c3, c4, c5⟩ := hc
    have hft : (r.st.first_time && host_not_ready env.head) = false := by
      cases h1 : r.st.first_time <;> cases h2 : host_not_ready env.head <;> simp_all
    have htd : td = r.st.current_time - r.st.prev_time := (Option.some.inj h).symm
    rw [c1]
    simp only [c2, Bool.not_true, Bool.false_eq_true, if_false, writes_append, f3,
      List.nil_append]
    unfold handle_data
    cases h1 : r.st.first_time <;> by_cases hl : r.st.num_logs < 100 <;>
      simp_all [set_head, writes] <;> rw [if_neg (not_lt.mpr hl)] <;> rfl
  · intro h
    split_ifs at h with hc
    cases hex : r.exit with
    | returned => simpa using f3
    | broke =>
      cases hg : r.got_something with
      | false => simpa using f3
      | true =>
        simp only [Bool.not_true, Bool.false_eq_true, if_false, writes_append, f3,
          List.nil_append]
        unfold handle_data
        by_cases hv : env.view_type = 1026 <;> cases h1 : r.st.first_time <;>
          cases h2 : host_not_ready env.head <;> cases h3 : r.st.input_reset <;>
          simp_all [writes]

/-- C11, as the code has it (the elapsed time is never negative when smoothing
runs): from the state at plug-in load (reset pending), after any sequence of
cycles and reset requests, whatever `pow` computes, if the host clock values
up to and including the next cycle are non-decreasing and that cycle executes
the smoothing step with elapsed time `td`, then `prev_time <= now` and
`td = now - prev_time >= 0`; the weight of that step is `pow(ALPHA, td)`, the
smoothed pose being `(1 - pow(ALPHA, td)) * data + pow(ALPHA, td) * prev_data`;
and where `pow` gives the exact real power `0.1^td`, that weight lies in
`(0, 1]`. -/
theorem elapsed_never_negative (pow : ℝ → ℝ → ℝ) (before : List (Step ℝ))
    (env : CycleInput ℝ) (td : ℝ)
    (hclock : (clock_values (before ++ [.cycle env])).Pairwise (fun a b => a ≤ b))
    (hs : time_diff_of_cycle env (run pow (State.initial ℝ) before).1 = some td) :
    (run pow (State.initial ℝ) before).1.prev_time ≤ env.now ∧
    td = env.now - (run pow (State.initial ℝ) before).1.prev_time ∧
    0 ≤ td ∧
    (get_and_handle_data pow env (run pow (State.initial ℝ) before).1).st.prev_data =
      (fun i =>
        (1 - pow ALPHA td) *
          (drain { (run pow (State.initial ℝ) before).1 with current_time := env.now }
            env.stack_data false env.recvs).data i +
        pow ALPHA td * (run pow (State.initial ℝ) before).1.prev_data i) ∧
    (pow ALPHA td = (0.1 : ℝ) ^ td → 0 < pow ALPHA td ∧ pow ALPHA td ≤ 1) := by
  obtain ⟨hr, htd⟩ := time_diff_of_cycle_some env _ td hs
  rw [clock_values_append, List.pairwise_append] at hclock
  have hle : ∀ t ∈ clock_values before, t ≤ env.now := by
    intro t ht
    exact hclock.2.2 t ht env.now (by simp [clock_values])
  have hp := run_prev_time pow before (State.initial ℝ) env.now
    (by intro h; exact absurd h (by simp [State.initial])) hle hr
  have h0 : 0 ≤ td := by rw [htd]; linarith
  refine ⟨hp, htd, h0, ?_, ?_⟩
  · rw [((time_diff_of_cycle_smooths pow env _).1 td hs).1]
    rfl
  · intro hw
    rw [hw]
    exact ⟨Real.rpow_pos_of_pos (by norm_num) td,
      Real.rpow_le_one (by norm_num) (by norm_num) h0⟩

theorem elapsed_never_negative_witness :
    (clock_values ([.cycle env_moved] ++
      [.cycle (env_later : CycleInput ℝ)])).Pairwise (fun a b => a ≤ b) ∧
    time_diff_of_cycle env_later
      (run Real.rpow (State.initial ℝ) [.cycle env_moved]).1 = some ((4 : ℝ) - 3) ∧
    Real.rpow ALPHA ((4 : ℝ) - 3) = (0.1 : ℝ) ^ ((4 : ℝ) - 3) ∧
    (run Real.rpow (State.initial ℝ) [.cycle env_moved]).1.prev_time ≤
      (env_later : CycleInput ℝ).now ∧
    (0 : ℝ) ≤ 4 - 3 ∧
    0 < Real.rpow ALPHA ((4 : ℝ) - 3) ∧ Real.rpow ALPHA ((4 : ℝ) - 3) ≤ 1 := by
  have hclock : (clock_values ([.cycle env_moved] ++
      [.cycle (env_later : CycleInput ℝ)])).Pairwise (fun a b => a ≤ b) := by
    simp [clock_values, env_moved, env_later, cockpit_cycle]
    norm_num
  have hs : time_diff_of_cycle env_later
      (run Real.rpow (State.initial ℝ) [.cycle env_moved]).1 = some ((4 : ℝ) - 3) := by
    simp [time_diff_of_cycle, run, get_and_handle_data, drain, handle_data, env_moved,
      env_later, cockpit_cycle, well_formed, sizeof_data, host_not_ready, State.initial, X]
  have hw : Real.rpow ALPHA ((4 : ℝ) - 3) = (0.1 : ℝ) ^ ((4 : ℝ) - 3) := by
    have h : (ALPHA : ℝ) = 0.1 := by norm_num [ALPHA]
    rw [h, Real.rpow_eq_pow]
  have h := elapsed_never_negative Real.rpow [.cycle env_moved] env_later ((4 : ℝ) - 3)
    hclock hs
  exact ⟨hclock, hs, hw, h.1, h.2.2.1, (h.2.2.2.2 hw).1, (h.2.2.2.2 hw).2⟩

/-- C11 fails as stated for the weight: with a `pow` that underflows as the
`double` one does, a cycle at time 3 that captures and seeds, followed on a
non-decreasing clock by a cycle at time 403, smooths with elapsed time 400 and
the weight `pow(0.1, 400) = 0`, which is not in `(0, 1]`; the smoothed pose is
then exactly the new sample. -/
theorem weight_underflow_counterexample :
    (clock_values ([.cycle env_moved] ++
      [.cycle (env_much_later : CycleInput ℚ)])).Pairwise (fun a b => a ≤ b) ∧
    time_diff_of_cycle env_much_later
      (run pow_underflow (State.initial ℚ) [.cycle env_moved]).1 = some 400 ∧
    pow_underflow ALPHA 400 = 0 ∧
    ¬ (0 < pow_underflow ALPHA 400 ∧ pow_underflow ALPHA 400 ≤ 1) ∧
    (get_and_handle_data pow_underflow env_much_later
      (run pow_underflow (State.initial ℚ) [.cycle env_moved]).1).st.prev_data X =
        pose_B X := by
  have hw : pow_underflow ALPHA 400 = 0 := by
    have hf : Int.toNat (Int.floor (400 : ℚ)) = 400 := by
      rw [show (400 : ℚ) = ((400 : ℤ) : ℚ) by norm_num, Int.floor_intCast]
      rfl
    simp only [pow_underflow, pow_q, ALPHA, hf]
    norm_num
  refine ⟨?_, ?_, hw, ?_, ?_⟩
  · simp [clock_values, env_moved, env_much_later, cockpit_cycle]
    norm_num
  · simp [time_diff_of_cycle, run, get_and_handle_data, drain, handle_data, env_moved,
      env_much_later, cockpit_cycle, well_formed, sizeof_data, host_not_ready,
      State.initial, X]
    norm_num
  · rw [hw]
    norm_num
  · simp [run, get_and_handle_data, drain, handle_data, env_moved, env_much_later,
      cockpit_cycle, well_formed, sizeof_data, host_not_ready, State.initial, X,
      average_data]
    norm_num [hw, pose_B]

end SymmetricalBroccoli
